import Mathlib

/-!
Verification development for the kfs virtual-filesystem library.

The Go sources are shallowly embedded: pure path manipulation from the host
`path` package is reimplemented over `List Char`; the in-memory backend's
path table (`fstest.MapFS`) is an association list from canonical path to
file record; stateful operations take the state and return the new state;
the wall clock (`time.Now()`) is passed as an explicit parameter; fallible
operations return `Except` of a `PathError` carrying the operation name,
the path, and the error kind.
-/

deriving instance DecidableEq for Except

namespace Kfs

abbrev Path := String

/-! ## Host path utilities (Go `path` package and `io/fs.ValidPath`)

These are the process-wide path-joining utilities the spec lists as external
collaborators (spec section 6: "a host path-normalization/joining utility
(pure, no I/O)"); they are modelled from the Go standard library functions the
repository calls: `strings.Split`, `path.Clean`, `path.Dir`, `path.Base`,
`path.Join`, `path.IsAbs` and `io/fs.ValidPath`. All are written over
`List Char` so that the kernel can evaluate them on concrete inputs. -/

/-- Split on a separator character, in the manner of Go `strings.Split(p, "/")`.
The accumulator holds the current segment reversed. -/
def splitSlashL : List Char → List Char → List String
  | [], acc => [String.mk acc.reverse]
  | c :: rest, acc =>
    if c = '/' then String.mk acc.reverse :: splitSlashL rest []
    else splitSlashL rest (c :: acc)

/-- Go `strings.Split(p, "/")`: `""` splits to `[""]`, `"a/b"` to `["a","b"]`. -/
def splitSlash (p : String) : List String := splitSlashL p.data []

/-- Join a list of strings with `"/"` (inverse of `splitSlash` on its image). -/
def joinSep : List String → String
  | [] => ""
  | [x] => x
  | x :: xs => x ++ "/" ++ joinSep xs

/-- Go `strings.HasPrefix` / `String.startsWith`. -/
def strStarts (p pre : String) : Bool := pre.data.isPrefixOf p.data

/-- Go `io/fs.ValidPath`: `"."` is valid, otherwise every slash-separated
element must be nonempty and differ from `"."` and `".."`. (UTF-8 validity
always holds in this embedding since Lean strings are sequences of scalar
values.) -/
def validPath (name : Path) : Bool :=
  name = "." || (splitSlash name).all (fun e => e ≠ "" && e ≠ "." && e ≠ "..")

/-- Process one element in the manner of Go `path.Clean`: `st` holds emitted
elements in reverse order; `rooted` marks a path that begins with `/`. -/
def cleanPush (rooted : Bool) (st : List String) (e : String) : List String :=
  if e = "" || e = "." then st
  else if e = ".." then
    match st with
    | [] => if rooted then [] else [".."]
    | top :: rest => if top = ".." then e :: top :: rest else rest
  else e :: st

/-- Go `path.Clean`: lexical normalization (drop empty and `.` elements,
resolve `..` against preceding elements, keep leading `..` on relative
paths, drop `..` at the root of rooted paths). -/
def clean (p : Path) : Path :=
  if p = "" then "."
  else
    let rooted := strStarts p "/"
    let elems := (splitSlash p).foldl (cleanPush rooted) []
    let body := joinSep elems.reverse
    if rooted then "/" ++ body
    else if body = "" then "." else body

/-- Go `path.Dir`: everything up to and including the final slash, cleaned;
`"."` when the path contains no slash. -/
def dirOf (p : Path) : Path :=
  let parts := splitSlash p
  if parts.length ≤ 1 then "."
  else clean (joinSep parts.dropLast ++ "/")

/-- Go `path.Base`: last element after stripping trailing slashes; `"."` for
the empty path, `"/"` for a path made of slashes only. -/
def baseOf (p : Path) : Path :=
  if p = "" then "."
  else
    let q := String.mk (p.data.reverse.dropWhile (· = '/')).reverse
    if q = "" then "/"
    else (splitSlash q).getLastD q

/-- Go `path.Join`: drop empty elements, join the rest with `/`, clean;
empty when every element is empty. -/
def joinPaths (elems : List Path) : Path :=
  let es := elems.filter (fun e => e ≠ "")
  if es.isEmpty then "" else clean (joinSep es)

/-- Go `path.Join` with two elements. -/
def join2 (a b : Path) : Path := joinPaths [a, b]

/-- Go `path.IsAbs`. -/
def isAbs (p : Path) : Bool := strStarts p "/"

example : splitSlash "a/b" = ["a", "b"] := by decide
example : splitSlash "" = [""] := by decide
example : validPath "a/b.txt" = true ∧ validPath "../x" = false ∧ validPath "." = true := by decide
example : clean "a/b/../c/" = "a/c" := by decide
example : clean "../a" = "../a" := by decide
example : clean "/../a" = "/a" := by decide
example : dirOf "a/link.txt" = "a" := by decide
example : dirOf "x" = "." := by decide
example : baseOf "a/b.txt" = "b.txt" := by decide
example : join2 "a" "../b" = "b" := by decide
example : join2 "" "secret" = "secret" := by decide
example : validPath (join2 (dirOf "a/link.txt") "../../outside.txt") = false := by decide
example : validPath (join2 (dirOf "a/link.txt") "../outside.txt") = true := by decide
example : validPath (join2 (dirOf "a/link.txt") "sibling.txt") = true := by decide

/-! ## Error taxonomy and descriptors

Errors are `fs.PathError` values: an operation name, the path concerned, and
the kind of the wrapped sentinel (spec section 7). The kind models what Go
`errors.Is` would report for the innermost sentinel. -/

/-- Error kinds of the taxonomy (spec section 7) plus the host sentinels the
backends pass through (`io.EOF`, `not a directory`, `is a directory`). -/
inductive ErrKind where
  | invalidPath
  | notImplemented
  | targetOutsideFS
  | notExist
  | exist
  | invalidArg
  | fileMasked
  | readOnly
  | isDirectory
  | notDirectory
  | filterFailed
  | eof
  deriving DecidableEq

/-- Go `fs.PathError` with the error kind of its wrapped error. -/
structure PathError where
  op : String
  path : Path
  kind : ErrKind
  deriving DecidableEq

/-- Go `fs.FileMode` as a bit set; bit 31 is `ModeDir`, bit 27 is `ModeSymlink`. -/
abbrev FileMode := Nat

/-- Go `fs.ModeDir` (bit 31). -/
def modeDir : FileMode := 2147483648

/-- Go `fs.ModeSymlink` (bit 27). -/
def modeSymlink : FileMode := 134217728

/-- Go `mode&fs.ModeDir != 0`. -/
def isDirMode (m : FileMode) : Bool := Nat.testBit m 31

/-- Go `mode.Type()&fs.ModeSymlink != 0` (bit 27 is a type bit, so masking by
`Type()` does not change the test). -/
def isSymlinkMode (m : FileMode) : Bool := Nat.testBit m 27

/-- Timestamps; `0` models Go's zero `time.Time`. -/
abbrev Time := Nat

/-- Go `fstest.MapFile`: content bytes (kept as a string, Go `[]byte` and
`string` being interconvertible byte sequences), mode and modification time. -/
structure MapFile where
  data : String
  mode : FileMode
  modTime : Time
  deriving DecidableEq

/-- The in-memory backend's path table `fstest.MapFS`, as an association list
from canonical path to record (Go map keys are unique; operations below
preserve that). -/
abbrev FsMap := List (Path × MapFile)

/-- Go map read `m[name]`. -/
def mfsGet : FsMap → Path → Option MapFile
  | [], _ => none
  | kv :: rest, p => if kv.1 = p then some kv.2 else mfsGet rest p

/-- Go map write `m[name] = v`: replace the record at the key, or add it. -/
def mfsSet : FsMap → Path → MapFile → FsMap
  | [], p, v => [(p, v)]
  | kv :: rest, p, v => if kv.1 = p then (p, v) :: rest else kv :: mfsSet rest p v

/-- Descriptor returned by stat-like operations (Go `fs.FileInfo`; a
`fs.DirEntry` produced by `fs.FileInfoToDirEntry` carries the same data, so
the same type serves for directory entries and filter arguments). -/
structure FileInfoM where
  name : String
  size : Nat
  mode : FileMode
  modTime : Time
  deriving DecidableEq

/-- Descriptor of a stored record at `name`. -/
def infoOf (name : Path) (f : MapFile) : FileInfoM :=
  ⟨baseOf name, f.data.length, f.mode, f.modTime⟩

/-- Descriptor `fstest.MapFS` synthesizes for an implicit directory:
`fs.ModeDir | 0o555`, zero time. -/
def synthDirInfo (name : Path) : FileInfoM := ⟨baseOf name, 0, modeDir + 365, 0⟩

/-- Whether a stored path lies strictly under `name` (`fstest.MapFS` treats
such a `name` as an existing implicit directory). -/
def dirHasChildren (s : FsMap) (name : Path) : Bool :=
  s.any (fun kv => strStarts kv.1 (name ++ "/"))

/-! ## Read operations of the in-memory table (`testing/fstest.MapFS`)

The repository's `MapFS` delegates every read capability to the host
`testing/fstest.MapFS` (spec section 4.3: directories are implicit — any
proper prefix of a stored path is an existing directory). The host behavior
is modelled here: a stored record without the directory bit is an ordinary
file; a stored record with the directory bit, the root `"."`, or a path with
stored descendants opens as a directory. -/

/-- Go `fs.Stat` over `fstest.MapFS` (open the file, take its descriptor). -/
def mapStat (s : FsMap) (name : Path) : Except PathError FileInfoM :=
  if ¬ validPath name then .error ⟨"open", name, .notExist⟩
  else
    match mfsGet s name with
    | some f => .ok (infoOf name f)
    | none =>
      if name = "." || dirHasChildren s name then .ok (synthDirInfo name)
      else .error ⟨"open", name, .notExist⟩

/-- Go `fs.ReadFile` over `fstest.MapFS`: full contents of an ordinary file;
reading a directory fails with the host's `is a directory` error. -/
def mapReadFile (s : FsMap) (name : Path) : Except PathError String :=
  if ¬ validPath name then .error ⟨"open", name, .notExist⟩
  else
    match mfsGet s name with
    | some f => if isDirMode f.mode then .error ⟨"read", name, .isDirectory⟩ else .ok f.data
    | none =>
      if name = "." || dirHasChildren s name then .error ⟨"read", name, .isDirectory⟩
      else .error ⟨"open", name, .notExist⟩

/-- Keep the first occurrence of each string. -/
def dedupStr (l : List String) : List String :=
  (l.foldl (fun acc x => if acc.contains x then acc else x :: acc) []).reverse

/-- Insert into a lexically sorted list. -/
def insertStr (x : String) : List String → List String
  | [] => [x]
  | y :: ys => if x.data < y.data then x :: y :: ys else y :: insertStr x ys

/-- Lexical sort (insertion sort). -/
def sortStrings (l : List String) : List String := l.foldr insertStr []

/-- First slash-separated segment. -/
def firstSeg (p : String) : String := (splitSlash p).headD ""

/-- The immediate-child segment a stored path `k` contributes under directory
`name`, when it lies under it. -/
def relChildSeg (name k : String) : Option String :=
  if name = "." then (if k = "." then none else some (firstSeg k))
  else if strStarts k (name ++ "/") then some (firstSeg (String.mk (k.data.drop (name.length + 1))))
  else none

/-- Child names `fstest.MapFS` synthesizes for directory `name`: distinct
first segments of stored paths under it, in lexical order (spec
section 4.3.2). -/
def childrenOf (s : FsMap) (name : Path) : List String :=
  sortStrings (dedupStr (s.filterMap (fun kv => relChildSeg name kv.1)))

/-- Full path of child `c` of directory `name`. -/
def childPath (name c : String) : Path := if name = "." then c else name ++ "/" ++ c

/-- Directory-entry descriptors of the children of `name`. -/
def childInfos (s : FsMap) (name : Path) : List FileInfoM :=
  (childrenOf s name).map (fun c =>
    match mfsGet s (childPath name c) with
    | some f => infoOf (childPath name c) f
    | none => synthDirInfo (childPath name c))

/-- Go `fs.ReadDir` over `fstest.MapFS`: entries of a directory in lexical
order; reading an ordinary file as a directory fails. -/
def mapReadDir (s : FsMap) (name : Path) : Except PathError (List FileInfoM) :=
  if ¬ validPath name then .error ⟨"open", name, .notExist⟩
  else
    match mfsGet s name with
    | some f =>
      if isDirMode f.mode then .ok (childInfos s name)
      else .error ⟨"read", name, .notDirectory⟩
    | none =>
      if name = "." || dirHasChildren s name then .ok (childInfos s name)
      else .error ⟨"open", name, .notExist⟩

/-- Result of Go `Open` on the in-memory table: an ordinary file with its
contents, or a directory with its entries. -/
inductive OpenedFile where
  | regular (info : FileInfoM) (data : String)
  | directory (info : FileInfoM) (entries : List FileInfoM)
  deriving DecidableEq

/-- Go `fstest.MapFS.Open`. -/
def mapOpen (s : FsMap) (name : Path) : Except PathError OpenedFile :=
  if ¬ validPath name then .error ⟨"open", name, .notExist⟩
  else
    match mfsGet s name with
    | some f =>
      if isDirMode f.mode then .ok (.directory (infoOf name f) (childInfos s name))
      else .ok (.regular (infoOf name f) f.data)
    | none =>
      if name = "." || dirHasChildren s name then
        .ok (.directory (synthDirInfo name) (childInfos s name))
      else .error ⟨"open", name, .notExist⟩

example : mapStat [("bar/foobar.txt", ⟨"foo bar", 420, 3⟩)] "bar" = .ok ⟨"bar", 0, modeDir + 365, 0⟩ := by decide
example : mapReadFile [("foo.txt", ⟨"hello, world", 420, 3⟩)] "foo.txt" = .ok "hello, world" := by decide
example : mapReadDir [("bar/foobar.txt", ⟨"foo bar", 420, 3⟩)] "." = .ok [synthDirInfo "bar"] := by decide
example : mapReadDir [("bar/foobar.txt", ⟨"foo bar", 420, 3⟩), ("bar/a.txt", ⟨"a", 420, 3⟩)] "bar"
    = .ok [infoOf "bar/a.txt" ⟨"a", 420, 3⟩, infoOf "bar/foobar.txt" ⟨"foo bar", 420, 3⟩] := by decide

/-! ## Open flags (`os` package values on Linux) and the kfstest `MapFS`
open-file state machine (src/unnamed/part_003, `MapFS.OpenFile`) -/

def O_RDONLY : Nat := 0
def O_WRONLY : Nat := 1
def O_RDWR : Nat := 2
def O_CREATE : Nat := 64
def O_EXCL : Nat := 128
def O_TRUNC : Nat := 512
def O_APPEND : Nat := 1024

/-- `rwFlagMask = os.O_RDONLY | os.O_WRONLY | os.O_RDWR`. -/
def rwFlagMask : Nat := O_RDONLY ||| O_WRONLY ||| O_RDWR

/-- Go `flag&bit != 0`. -/
def hasFlag (flag bit : Nat) : Bool := flag &&& bit != 0

/-- kfstest `isReadWrite`: switch on `flag & rwFlagMask`, returning
`(isRead, isWrite)`; any other value of the masked bits is neither. -/
def isReadWrite (flag : Nat) : Bool × Bool :=
  match flag &&& rwFlagMask with
  | 0 => (true, false)
  | 1 => (false, true)
  | 2 => (true, true)
  | _ => (false, false)

/-- Go `bytes.Reader`: a byte sequence and a read cursor. -/
structure ByteReader where
  data : String
  pos : Nat
  deriving DecidableEq

/-- Go `bytes.Reader.Read` into a buffer of length `n`: `io.EOF` at or past
the end, otherwise the copied count (contents travel through the caller's
buffer; the model tracks the count and cursor). -/
def byteReaderRead (r : ByteReader) (n : Nat) : (Nat × Option PathError) × ByteReader :=
  if r.data.length ≤ r.pos then ((0, some ⟨"", "", .eof⟩), r)
  else
    let k := min n (r.data.length - r.pos)
    ((k, none), { r with pos := r.pos + k })

/-- Go `bytes.Reader.Seek`: whence 0 from the start, 1 from the cursor,
2 from the end; negative results are rejected. -/
def byteReaderSeek (r : ByteReader) (offset : Int) (whence : Nat) :
    (Int × Option PathError) × ByteReader :=
  let abs : Int :=
    match whence with
    | 0 => offset
    | 1 => (r.pos : Int) + offset
    | _ => (r.data.length : Int) + offset
  if abs < 0 then ((0, some ⟨"", "", .invalidArg⟩), r)
  else ((abs, none), { r with pos := abs.toNat })

/-- Go `bytes.Reader.ReadAt`: no cursor movement; `io.EOF` past the end or on
a short read. -/
def byteReaderReadAt (r : ByteReader) (n : Nat) (off : Int) : Nat × Option PathError :=
  if off < 0 then (0, some ⟨"", "", .invalidArg⟩)
  else if (r.data.length : Int) ≤ off then (0, some ⟨"", "", .eof⟩)
  else
    let k := min n (r.data.length - off.toNat)
    (k, if k < n then some ⟨"", "", .eof⟩ else none)

/-- kfstest `mapFile`: the open-file handle. `infoFile` is the record the
handle's `mapFileInfo` points at, `rdata` the read cursor of a read handle,
`wbuf` the write buffer of a write handle (`nil` pointers are `none`). -/
structure MapHandle where
  infoName : String
  infoFile : MapFile
  hpath : Path
  rdata : Option ByteReader
  wbuf : Option String
  deriving DecidableEq

/-- kfstest `mapFile.assertReader`: the `File not open for reading` error for
a handle without a reader. -/
def mapFileAssertReader (f : MapHandle) : Option PathError :=
  if f.rdata.isNone then some ⟨"read", f.hpath, .invalidArg⟩ else none

/-- kfstest `mapFile.Read`: the source drops the assert error and returns
`0, nil`; otherwise the reader is consulted. -/
def mapFileRead (f : MapHandle) (n : Nat) : (Nat × Option PathError) × MapHandle :=
  if (mapFileAssertReader f).isSome then ((0, none), f)
  else
    match f.rdata with
    | some r =>
      let (res, rr) := byteReaderRead r n
      (res, { f with rdata := some rr })
    | none => ((0, none), f)

/-- kfstest `mapFile.Seek`: the source drops the assert error and returns
`0, nil`; otherwise the reader is consulted. -/
def mapFileSeek (f : MapHandle) (offset : Int) (whence : Nat) :
    (Int × Option PathError) × MapHandle :=
  if (mapFileAssertReader f).isSome then ((0, none), f)
  else
    match f.rdata with
    | some r =>
      let (res, rr) := byteReaderSeek r offset whence
      (res, { f with rdata := some rr })
    | none => ((0, none), f)

/-- kfstest `mapFile.ReadAt`: the source drops the assert error and returns
`0, nil`; otherwise the reader is consulted (no cursor movement). -/
def mapFileReadAt (f : MapHandle) (n : Nat) (off : Int) :
    (Nat × Option PathError) × MapHandle :=
  if (mapFileAssertReader f).isSome then ((0, none), f)
  else
    match f.rdata with
    | some r => (byteReaderReadAt r n off, f)
    | none => ((0, none), f)

/-- kfstest `mapFile.Write`: error on a handle without a write buffer,
otherwise append to the buffer and report the full count. -/
def mapFileWrite (f : MapHandle) (p : String) : (Nat × Option PathError) × MapHandle :=
  match f.wbuf with
  | none => ((0, some ⟨"write", f.hpath, .invalidArg⟩), f)
  | some b => ((p.length, none), { f with wbuf := some (b ++ p) })

/-- kfstest `mapFile.Close`: a write handle commits its buffer as a fresh
record (mode taken from the handle's record, time refreshed to `now`) and
drops the buffer; closing a read handle changes nothing. -/
def mapFileClose (f : MapHandle) (s : FsMap) (now : Time) : FsMap × MapHandle :=
  match f.wbuf with
  | none => (s, f)
  | some b => (mfsSet s f.hpath ⟨b, f.infoFile.mode, now⟩, { f with wbuf := none })

/-- Trailing half of kfstest `MapFS.OpenFile` after the record `f0` is in
hand (`stored` marks a record read from the table, whose truncation is
visible in place): the truncate and append checks, then the handle. -/
def mapOpenWith (s : FsMap) (name : Path) (flag : Nat) (f0 : MapFile) (stored : Bool)
    (rw : Bool × Bool) : Except PathError (MapHandle × FsMap) :=
  if hasFlag flag O_TRUNC && !rw.2 then .error ⟨"openfile", name, .invalidArg⟩
  else
    let f1 := if hasFlag flag O_TRUNC then { f0 with data := "" } else f0
    let s1 := if hasFlag flag O_TRUNC && stored then mfsSet s name f1 else s
    if hasFlag flag O_APPEND && !rw.2 then .error ⟨"openfile", name, .invalidArg⟩
    else
      .ok ({ infoName := baseOf name, infoFile := f1, hpath := name,
             rdata := if rw.1 then some ⟨f1.data, 0⟩ else none,
             wbuf := if rw.2 then some (if hasFlag flag O_APPEND then f1.data else "") else none },
           s1)

/-- kfstest `MapFS.OpenFile` (src/unnamed/part_003 lines 73-186): path
validation, the flag-combination checks in source order, the presence rules
against the table, then `mapOpenWith`. `now` is the wall clock read by
`time.Now()` for a synthesized record. -/
def mapOpenFile (s : FsMap) (name : Path) (flag : Nat) (mode : FileMode) (now : Time) :
    Except PathError (MapHandle × FsMap) :=
  if ¬ validPath name then .error ⟨"openfile", name, .invalidPath⟩
  else
    let rw := isReadWrite flag
    if !rw.1 && !rw.2 then .error ⟨"openfile", name, .invalidArg⟩
    else if rw.1 && rw.2 then .error ⟨"openfile", name, .invalidArg⟩
    else if hasFlag flag O_CREATE && !rw.2 then .error ⟨"openfile", name, .invalidArg⟩
    else if !hasFlag flag O_CREATE && hasFlag flag O_EXCL then
      .error ⟨"openfile", name, .invalidArg⟩
    else
      match mfsGet s name with
      | none =>
        if !hasFlag flag O_CREATE then .error ⟨"openfile", name, .notExist⟩
        else mapOpenWith s name flag ⟨"", mode, now⟩ false rw
      | some f0 =>
        if hasFlag flag O_EXCL then .error ⟨"openfile", name, .exist⟩
        else mapOpenWith s name flag f0 true rw

/-- kfs `WriteFile` specialised to the in-memory backend: open write-only
with create and truncate, write the data, close; the deferred close commits
even when the write reported an error. `t1` is the clock at open, `t2` at
close. -/
def mapWriteFile (s : FsMap) (name : Path) (data : String) (perm : FileMode) (t1 t2 : Time) :
    Except PathError FsMap :=
  match mapOpenFile s name (O_WRONLY ||| O_CREATE ||| O_TRUNC) perm t1 with
  | .error e => .error e
  | .ok (h, s1) =>
    let wres := mapFileWrite h data
    let cres := mapFileClose wres.2 s1 t2
    match wres.1.2 with
    | some e => .error e
    | none => .ok cres.1

/-- kfstest `MapFS.Lstat`: path validation, then `fs.Stat` (the in-memory
table does not follow symlinks). -/
def mapLstat (s : FsMap) (name : Path) : Except PathError FileInfoM :=
  if ¬ validPath name then .error ⟨"lstat", name, .invalidPath⟩
  else mapStat s name

/-- kfstest `MapFS.ReadLink` (src/unnamed/part_003 lines 201-236): path
validation; a stored symlink record's data is the raw target, rejected as
`TargetOutsideFS` when absolute or when joining it onto the link's directory
escapes the tree; otherwise returned unchanged. A missing or non-symlink
record is `File is not a link`. -/
def mapReadLink (s : FsMap) (name : Path) : Except PathError String :=
  if ¬ validPath name then .error ⟨"readlink", name, .invalidPath⟩
  else
    match mfsGet s name with
    | some f =>
      if isSymlinkMode f.mode then
        let target := f.data
        if isAbs target then .error ⟨"readlink", name, .targetOutsideFS⟩
        else if ¬ validPath (join2 (dirOf name) target) then
          .error ⟨"readlink", name, .targetOutsideFS⟩
        else .ok target
      else .error ⟨"readlink", name, .invalidArg⟩
    | none => .error ⟨"readlink", name, .invalidArg⟩

/-- osFS `ReadLink` (src/kfs.go lines 225-257) after the native `readlink`
returned `target`: the syscall result is an input of the model, and
`filepath.ToSlash` is the identity since targets are kept in the universal
slash form. The containment check is identical to the in-memory one. -/
def osReadLink (name target : String) : Except PathError String :=
  if ¬ validPath name then .error ⟨"readlink", name, .invalidPath⟩
  else if isAbs target then .error ⟨"readlink", name, .targetOutsideFS⟩
  else if ¬ validPath (join2 (dirOf name) target) then
    .error ⟨"readlink", name, .targetOutsideFS⟩
  else .ok target

/-- kfstest `MapFS.Remove`: path validation, `NotExist` for a missing record,
otherwise delete exactly that key. -/
def mapRemove (s : FsMap) (name : Path) : Except PathError FsMap :=
  if ¬ validPath name then .error ⟨"remove", name, .invalidPath⟩
  else
    match mfsGet s name with
    | none => .error ⟨"remove", name, .notExist⟩
    | some _ => .ok (s.filter (fun kv => kv.1 ≠ name))

/-- kfstest `MapFS.RemoveAll`: path validation, then delete every key equal
to the name or under it; never an error beyond validation. -/
def mapRemoveAll (s : FsMap) (name : Path) : Except PathError FsMap :=
  if ¬ validPath name then .error ⟨"removeall", name, .invalidPath⟩
  else .ok (s.filter (fun kv => !(kv.1 == name || strStarts kv.1 (name ++ "/"))))

/-- kfstest `MapFS.Chtimes` (src/unnamed/part_003 lines 279-300): path
validation, `NotExist` for a missing record; the access time is never read,
and the modification time is stored only when it is not the zero time. -/
def mapChtimes (s : FsMap) (name : Path) (_atime mtime : Time) : Except PathError FsMap :=
  if ¬ validPath name then .error ⟨"chtimes", name, .invalidPath⟩
  else
    match mfsGet s name with
    | none => .error ⟨"chtimes", name, .notExist⟩
    | some f => .ok (if mtime ≠ 0 then mfsSet s name { f with modTime := mtime } else s)

/-! ## Globbing (host collaborator, modelled at the interface boundary)

Spec section 1 places directory-entry globbing out of scope: it is "pure
delegation to an existing pattern matcher" (`io/fs.Glob`). `io/fs.Glob`
treats a pattern without meta characters literally, returning it exactly when
it stats successfully and no match otherwise; patterns with meta characters
walk the tree against the host matcher, modelled here segment-wise with `*`
(any run inside a segment) and `?` (any single character) — the host's
character classes and escapes are not modelled. -/

/-- Go `hasMeta`: does the pattern contain a matcher meta character. -/
def hasMeta (pat : String) : Bool :=
  pat.data.any (fun c => c = '*' || c = '?' || c = '[' || c = '\\')

/-- Segment matcher: `*` any run, `?` one character, others literal. -/
def segMatch : List Char → List Char → Bool
  | [], [] => true
  | [], _ :: _ => false
  | '*' :: ps, [] => segMatch ps []
  | '*' :: ps, c :: cs => segMatch ps (c :: cs) || segMatch ('*' :: ps) cs
  | _ :: _, [] => false
  | p :: ps, c :: cs => (p = '?' || p = c) && segMatch ps cs
  termination_by ps cs => (ps.length, cs.length)

/-- Whole-path match: segment counts agree and every segment matches. -/
def globMatch (pat name : String) : Bool :=
  let ps := splitSlash pat
  let ns := splitSlash name
  ps.length == ns.length && (List.zip ps ns).all (fun pr => segMatch pr.1.data pr.2.data)

/-- Proper-prefix paths of a stored path (its implicit ancestor directories
and itself), the candidates a glob walk visits. -/
def ancestorsOf (p : String) : List String :=
  let segs := splitSlash p
  (List.range segs.length).map (fun i => joinSep (segs.take (i + 1)))

/-- Stored paths and their implicit directories, each once, sorted. -/
def allNames (s : FsMap) : List String :=
  sortStrings (dedupStr (s.flatMap (fun kv => ancestorsOf kv.1)))

/-- Go `fs.Glob` over the in-memory table: the literal shortcut for patterns
without meta characters; otherwise the walk, modelled as filtering every
visited name through the matcher. -/
def mapGlob (s : FsMap) (pat : String) : Except PathError (List Path) :=
  if hasMeta pat then .ok ((allNames s).filter (fun p => globMatch pat p))
  else
    match mapStat s pat with
    | .error _ => .ok []
    | .ok _ => .ok [pat]

/-! ## Concrete filesystem values and the decorators

A Go `fs.FS` value reaching this library is one of the concrete variants
(spec section 3, Capability Set): the in-memory backend, its path-rewriting
subtree proxy, a bare host value with only the base read contract (a raw
`fstest.MapFS`, which carries none of the kfs optional capabilities), the
masking decorator, or the read-only decorator. Decorators hold their wrapped
value behind the abstract interface, so the syntax is recursive; mutating
interpreters return the updated value. -/

/-- maskfs `FileFilter`: full virtual path and entry descriptor to
visibility, or a filter error (payload abstracted to a string). -/
abbrev Filter := Path → FileInfoM → Except String Bool

/-- The concrete filesystem variants. -/
inductive FS0 where
  /-- kfstest `MapFS` over a path table. -/
  | mapfs (s : FsMap)
  /-- kfstest `subdirFS`: path-rewriting proxy rooted at `dir` of the table. -/
  | mapsub (s : FsMap) (dir : String)
  /-- A bare `fstest.MapFS` value: base read contract only, none of the kfs
  optional capability interfaces. -/
  | bare (s : FsMap)
  /-- kfs `maskFS` (src/maskfs.go lines 199-357): wrapped value, accumulated
  prefix from the original root, visibility predicate. -/
  | mask (inner : FS0) (dir : String) (filter : Filter)
  /-- kfs `readOnlyFS`. -/
  | ro (inner : FS0)

/-- Whether the value implements kfs `LstatFS` (Go interface narrowing:
everything but a bare host value declares the method). -/
def hasLstatCap : FS0 → Bool
  | .bare _ => false
  | _ => true

/-- Whether the value implements kfs `ReadLinkFS`. -/
def hasReadLinkCap : FS0 → Bool
  | .bare _ => false
  | _ => true

/-- Whether the value implements kfs `WriteFS`. -/
def hasWriteCap : FS0 → Bool
  | .bare _ => false
  | _ => true

/-- Whether the value implements kfs `RemoveFS`: the masking decorator of
this snapshot declares no remove method. -/
def hasRemoveCap : FS0 → Bool
  | .bare _ => false
  | .mask _ _ _ => false
  | _ => true

/-- Whether the value implements kfs `RemoveAllFS` (as for `RemoveFS`). -/
def hasRemoveAllCap : FS0 → Bool
  | .bare _ => false
  | .mask _ _ _ => false
  | _ => true

/-- maskFS `checkFileStat`/`checkFileLstat` (src/maskfs.go lines 206-264)
given the result of statting the wrapped value: path validation first; a stat
error is propagated unwrapped; then the predicate on the full path and the
entry descriptor — a filter error is wrapped, a negative verdict is the
`FileMasked` permission error. -/
def maskCheck (op : String) (mdir : String) (fl : Filter) (name : Path)
    (statRes : Except PathError FileInfoM) : Except PathError FileInfoM :=
  if ¬ validPath name then .error ⟨op, name, .invalidPath⟩
  else
    match statRes with
    | .error e => .error e
    | .ok info =>
      match fl (join2 mdir name) info with
      | .error _ => .error ⟨op, name, .filterFailed⟩
      | .ok false => .error ⟨op, name, .fileMasked⟩
      | .ok true => .ok info

/-- maskFS `ReadDir` entry loop: drop entries the predicate rejects, fail on
a filter error (wrapped with the entry's full path). -/
def maskFilterEntries (fl : Filter) (mdir name : String) :
    List FileInfoM → Except PathError (List FileInfoM)
  | [] => .ok []
  | e :: rest =>
    match fl (joinPaths [mdir, name, e.name]) e with
    | .error _ => .error ⟨"readdir", joinPaths [mdir, name, e.name], .filterFailed⟩
    | .ok false => maskFilterEntries fl mdir name rest
    | .ok true => (maskFilterEntries fl mdir name rest).map (e :: ·)

/-- Go `fs.Stat` dispatched over a concrete value: backends answer from the
table (the subtree proxy joins the prefix), the masking decorator runs
`checkFileStat`, the read-only decorator delegates. -/
def fsStat : FS0 → Path → Except PathError FileInfoM
  | .mapfs s, name => mapStat s name
  | .mapsub s d, name =>
    if ¬ validPath name then .error ⟨"open", name, .invalidPath⟩
    else mapStat s (join2 d name)
  | .bare s, name => mapStat s name
  | .mask inner mdir fl, name => maskCheck "stat" mdir fl name (fsStat inner name)
  | .ro inner, name => fsStat inner name

/-- kfs `Lstat` method dispatched over a concrete value. The masking
decorator consults the wrapped value through the kfs `Lstat` helper, so a
wrapped value without the capability surfaces `NotImplemented`; a bare value
reached directly has no method and the entry records the helper's error. -/
def fsLstat : FS0 → Path → Except PathError FileInfoM
  | .mapfs s, name => mapLstat s name
  | .mapsub s d, name =>
    if ¬ validPath name then .error ⟨"lstat", name, .invalidPath⟩
    else mapLstat s (join2 d name)
  | .bare _, name => .error ⟨"lstat", name, .notImplemented⟩
  | .mask inner mdir fl, name =>
    maskCheck "lstat" mdir fl name
      (if hasLstatCap inner then fsLstat inner name
       else .error ⟨"lstat", name, .notImplemented⟩)
  | .ro inner, name =>
    if hasLstatCap inner then fsLstat inner name
    else .error ⟨"lstat", name, .notImplemented⟩

/-- kfs `Lstat` dispatch helper (src/kfs.go lines 49-59): narrow to
`LstatFS`, else the `NotImplemented` error wrapping operation and path. -/
def kfsLstat (fsys : FS0) (name : Path) : Except PathError FileInfoM :=
  if hasLstatCap fsys then fsLstat fsys name
  else .error ⟨"lstat", name, .notImplemented⟩

/-- Go `Open` dispatched over a concrete value. -/
def fsOpen : FS0 → Path → Except PathError OpenedFile
  | .mapfs s, name => mapOpen s name
  | .mapsub s d, name =>
    if ¬ validPath name then .error ⟨"open", name, .invalidPath⟩
    else mapOpen s (join2 d name)
  | .bare s, name => mapOpen s name
  | .mask inner mdir fl, name =>
    match maskCheck "open" mdir fl name (fsStat inner name) with
    | .error e => .error e
    | .ok _ => fsOpen inner name
  | .ro inner, name => fsOpen inner name

/-- Go `fs.ReadDir` dispatched over a concrete value; the masking decorator
checks the directory itself, then filters each entry. -/
def fsReadDir : FS0 → Path → Except PathError (List FileInfoM)
  | .mapfs s, name => mapReadDir s name
  | .mapsub s d, name =>
    if ¬ validPath name then .error ⟨"open", name, .invalidPath⟩
    else mapReadDir s (join2 d name)
  | .bare s, name => mapReadDir s name
  | .mask inner mdir fl, name =>
    match maskCheck "readdir" mdir fl name (fsStat inner name) with
    | .error e => .error e
    | .ok _ =>
      match fsReadDir inner name with
      | .error e => .error e
      | .ok entries => maskFilterEntries fl mdir name entries
  | .ro inner, name => fsReadDir inner name

/-- Go `fs.ReadFile` dispatched over a concrete value. -/
def fsReadFile : FS0 → Path → Except PathError String
  | .mapfs s, name => mapReadFile s name
  | .mapsub s d, name =>
    if ¬ validPath name then .error ⟨"open", name, .invalidPath⟩
    else mapReadFile s (join2 d name)
  | .bare s, name => mapReadFile s name
  | .mask inner mdir fl, name =>
    match maskCheck "readfile" mdir fl name (fsStat inner name) with
    | .error e => .error e
    | .ok _ => fsReadFile inner name
  | .ro inner, name => fsReadFile inner name

/-- Go `fs.Glob` dispatched over a concrete value. maskFS `Glob`
(src/maskfs.go lines 309-311) delegates to the wrapped value without
consulting the predicate; the subtree proxy prefixes the pattern and strips
the prefix from the matches. -/
def fsGlob : FS0 → String → Except PathError (List Path)
  | .mapfs s, pat => mapGlob s pat
  | .mapsub s d, pat =>
    if pat = "." then .ok ["."]
    else (mapGlob s (d ++ "/" ++ pat)).map
      (List.map (fun p => String.mk (p.data.drop (d.length + 1))))
  | .bare s, pat => mapGlob s pat
  | .mask inner _ _, pat => fsGlob inner pat
  | .ro inner, pat => fsGlob inner pat

/-- The read view stdlib `fs.Sub` builds over a bare value: the
prefix-stripped table (a bare value supports only the base contract, and so
does the generic host subtree wrapper). -/
def subView (s : FsMap) (d : String) : FsMap :=
  s.filterMap (fun kv =>
    if strStarts kv.1 (d ++ "/") then some (String.mk (kv.1.data.drop (d.length + 1)), kv.2)
    else none)

/-- Go `fs.Sub` dispatched over a concrete value: validate, return the value
itself for `"."`, else the value's own `Sub` method — the in-memory backend
yields its subtree proxy (kfstest `MapFS.Sub`/`subdirFS.Sub`), maskFS `Sub`
checks the directory then re-wraps with the accumulated prefix, readOnlyFS
`Sub` re-wraps the result in a new read-only decorator. -/
def fsSub : FS0 → String → Except PathError FS0
  | x, dir =>
    if ¬ validPath dir then .error ⟨"sub", dir, .invalidPath⟩
    else if dir = "." then .ok x
    else
      match x with
      | .mapfs s => .ok (.mapsub s dir)
      | .mapsub s d => .ok (.mapsub s (join2 d dir))
      | .bare s => .ok (.bare (subView s dir))
      | .mask inner mdir fl =>
        match maskCheck "sub" mdir fl dir (fsStat inner dir) with
        | .error e => .error e
        | .ok _ =>
          match fsSub inner dir with
          | .error e => .error e
          | .ok g => .ok (.mask g (join2 mdir dir) fl)
      | .ro inner =>
        match fsSub inner dir with
        | .error e => .error e
        | .ok g => .ok (.ro g)

/-- kfs `ReadLink` method dispatched over a concrete value; the masking
decorator runs `checkFileLstat` (lstat through the kfs helper), then
delegates through the kfs helper. -/
def fsReadLink : FS0 → Path → Except PathError String
  | .mapfs s, name => mapReadLink s name
  | .mapsub s d, name =>
    if ¬ validPath name then .error ⟨"readlink", name, .invalidPath⟩
    else mapReadLink s (join2 d name)
  | .bare _, name => .error ⟨"readlink", name, .notImplemented⟩
  | .mask inner mdir fl, name =>
    match maskCheck "readlink" mdir fl name
        (if hasLstatCap inner then fsLstat inner name
         else .error ⟨"lstat", name, .notImplemented⟩) with
    | .error e => .error e
    | .ok _ =>
      if hasReadLinkCap inner then fsReadLink inner name
      else .error ⟨"readlink", name, .notImplemented⟩
  | .ro inner, name =>
    if hasReadLinkCap inner then fsReadLink inner name
    else .error ⟨"readlink", name, .notImplemented⟩

/-- kfs `ReadLink` dispatch helper (src/kfs.go lines 75-85). -/
def kfsReadLink (fsys : FS0) (name : Path) : Except PathError String :=
  if hasReadLinkCap fsys then fsReadLink fsys name
  else .error ⟨"readlink", name, .notImplemented⟩

/-- kfs `OpenFile` method dispatched over a concrete value. maskFS
`OpenFile` (src/maskfs.go lines 339-348) runs `checkFileStat` and forwards
the error unless it is a plain not-exist (a masked or other error stops
here, a missing target proceeds so creation is never blocked); readOnlyFS
fails with the fixed `ReadOnly` error. -/
def fsOpenFile : FS0 → Path → Nat → FileMode → Time → Except PathError (MapHandle × FS0)
  | .mapfs s, name, flag, mode, t =>
    (mapOpenFile s name flag mode t).map (fun r => (r.1, .mapfs r.2))
  | .mapsub s d, name, flag, mode, t =>
    if ¬ validPath name then .error ⟨"openfile", name, .invalidPath⟩
    else (mapOpenFile s (join2 d name) flag mode t).map (fun r => (r.1, .mapsub r.2 d))
  | .bare _, name, _, _, _ => .error ⟨"openfile", name, .notImplemented⟩
  | .mask inner mdir fl, name, flag, mode, t =>
    let delegate :=
      (if hasWriteCap inner then fsOpenFile inner name flag mode t
       else .error ⟨"openfile", name, .notImplemented⟩).map
        (fun r => (r.1, FS0.mask r.2 mdir fl))
    match maskCheck "openfile" mdir fl name (fsStat inner name) with
    | .error e =>
      if e.kind = .fileMasked || !(e.kind = .notExist) then .error e
      else delegate
    | .ok _ => delegate
  | .ro _, name, _, _, _ => .error ⟨"openfile", name, .readOnly⟩

/-- kfs `OpenFile` dispatch helper (src/kfs.go lines 105-111). -/
def kfsOpenFile (fsys : FS0) (name : Path) (flag : Nat) (mode : FileMode) (t : Time) :
    Except PathError (MapHandle × FS0) :=
  if hasWriteCap fsys then fsOpenFile fsys name flag mode t
  else .error ⟨"openfile", name, .notImplemented⟩

/-- kfs `Remove` method dispatched over a concrete value (the masking
decorator of this snapshot declares none; readOnlyFS fails fixed). -/
def fsRemove : FS0 → Path → Except PathError FS0
  | .mapfs s, name => (mapRemove s name).map .mapfs
  | .mapsub s d, name =>
    if ¬ validPath name then .error ⟨"remove", name, .invalidPath⟩
    else (mapRemove s (join2 d name)).map (fun r => .mapsub r d)
  | .bare _, name => .error ⟨"remove", name, .notImplemented⟩
  | .mask _ _ _, name => .error ⟨"remove", name, .notImplemented⟩
  | .ro _, name => .error ⟨"remove", name, .readOnly⟩

/-- kfs `Remove` dispatch helper (src/kfs.go lines 150-156). -/
def kfsRemove (fsys : FS0) (name : Path) : Except PathError FS0 :=
  if hasRemoveCap fsys then fsRemove fsys name
  else .error ⟨"remove", name, .notImplemented⟩

/-- kfs `RemoveAll` method dispatched over a concrete value. -/
def fsRemoveAll : FS0 → Path → Except PathError FS0
  | .mapfs s, name => (mapRemoveAll s name).map .mapfs
  | .mapsub s d, name =>
    if ¬ validPath name then .error ⟨"remove", name, .invalidPath⟩
    else (mapRemoveAll s (join2 d name)).map (fun r => .mapsub r d)
  | .bare _, name => .error ⟨"removeall", name, .notImplemented⟩
  | .mask _ _ _, name => .error ⟨"removeall", name, .notImplemented⟩
  | .ro _, name => .error ⟨"removeall", name, .readOnly⟩

/-- kfs `RemoveAll` dispatch helper (src/kfs.go lines 159-165). -/
def kfsRemoveAll (fsys : FS0) (name : Path) : Except PathError FS0 :=
  if hasRemoveAllCap fsys then fsRemoveAll fsys name
  else .error ⟨"removeall", name, .notImplemented⟩

/-- Chtimes method dispatched over a concrete value: the in-memory backend
implements it, its subtree proxy joins the prefix, a bare value and the
masking decorator of this snapshot declare none, and readOnlyFS fails with
the fixed `ReadOnly` error (its operation string is `atime` in the source). -/
def fsChtimes : FS0 → Path → Time → Time → Except PathError FS0
  | .mapfs s, name, at_, mt => (mapChtimes s name at_ mt).map .mapfs
  | .mapsub s d, name, at_, mt =>
    if ¬ validPath name then .error ⟨"chtimes", name, .invalidPath⟩
    else (mapChtimes s (join2 d name) at_ mt).map (fun r => .mapsub r d)
  | .bare _, name, _, _ => .error ⟨"chtimes", name, .notImplemented⟩
  | .mask _ _ _, name, _, _ => .error ⟨"chtimes", name, .notImplemented⟩
  | .ro _, name, _, _ => .error ⟨"atime", name, .readOnly⟩

/-! ## Shared lemmas -/

/-- Reading the key just written. -/
theorem mfsGet_set_self (s : FsMap) (p : Path) (v : MapFile) :
    mfsGet (mfsSet s p v) p = some v := by
  induction s with
  | nil => simp [mfsSet, mfsGet]
  | cons kv rest ih =>
    by_cases h : kv.1 = p
    · simp [mfsSet, h, mfsGet]
    · simp [mfsSet, h, mfsGet, ih]

/-- Writing one key leaves every other key unchanged. -/
theorem mfsGet_set_other (s : FsMap) (p q : Path) (v : MapFile) (h : q ≠ p) :
    mfsGet (mfsSet s p v) q = mfsGet s q := by
  have h2 : p ≠ q := Ne.symm h
  induction s with
  | nil => simp [mfsSet, mfsGet, h2]
  | cons kv rest ih =>
    by_cases hk : kv.1 = p
    · simp [mfsSet, hk, mfsGet, h2]
    · simp only [mfsSet, hk, if_false, mfsGet, ih]

/-- The dispatch gate of kfs `Lstat`, as it appears inlined at call sites. -/
theorem kfsLstat_eq (fsys : FS0) (name : Path) :
    (if hasLstatCap fsys then fsLstat fsys name
     else .error ⟨"lstat", name, .notImplemented⟩) = kfsLstat fsys name := rfl

/-- The dispatch gate of kfs `OpenFile`, as it appears inlined at call sites. -/
theorem kfsOpenFile_eq (fsys : FS0) (name : Path) (flag : Nat) (mode : FileMode) (t : Time) :
    (if hasWriteCap fsys then fsOpenFile fsys name flag mode t
     else .error ⟨"openfile", name, .notImplemented⟩) = kfsOpenFile fsys name flag mode t := rfl

/-- Shape of a successful `mapOpenWith`: the handle's reader exists exactly
for a read handle and the write buffer exactly for a write handle. -/
theorem mapOpenWith_ok_shape (s : FsMap) (nm : Path) (flag : Nat) (f0 : MapFile) (st : Bool)
    (rw : Bool × Bool) (h : MapHandle) (s1 : FsMap)
    (hk : mapOpenWith s nm flag f0 st rw = .ok (h, s1)) :
    h.rdata = (if rw.1 then some ⟨h.infoFile.data, 0⟩ else none) ∧
    h.wbuf = (if rw.2 then some (if hasFlag flag O_APPEND then h.infoFile.data else "")
              else none) := by
  simp only [mapOpenWith] at hk
  split at hk
  · exact absurd hk (by simp)
  · split at hk
    · exact absurd hk (by simp)
    · cases hk
      exact ⟨rfl, rfl⟩

/-- A successful open with a write-only access mode yields a handle without a
reader. -/
theorem mapOpenFile_writeonly_handle (s : FsMap) (p : Path) (flag : Nat) (mode : FileMode)
    (t : Time) (h : MapHandle) (s1 : FsMap)
    (hw : isReadWrite flag = (false, true))
    (hopen : mapOpenFile s p flag mode t = .ok (h, s1)) : h.rdata = none := by
  simp only [mapOpenFile, hw] at hopen
  repeat' split at hopen
  all_goals
    first
      | exact absurd hopen (by simp)
      | simpa using (mapOpenWith_ok_shape _ _ _ _ _ _ _ _ hopen).1

/-- Entries surviving the maskFS `ReadDir` loop were accepted by the
predicate. -/
theorem maskFilterEntries_mem (fl : Filter) (mdir nm : String) (l : List FileInfoM) :
    ∀ res, maskFilterEntries fl mdir nm l = .ok res →
      ∀ e ∈ res, fl (joinPaths [mdir, nm, e.name]) e = .ok true := by
  induction l with
  | nil =>
    intro res hk e he
    simp only [maskFilterEntries] at hk
    cases hk
    simp at he
  | cons x rest ih =>
    intro res hk e he
    simp only [maskFilterEntries] at hk
    split at hk
    · exact absurd hk (by simp)
    · exact ih res hk e he
    · rename_i hfl
      cases hrec : maskFilterEntries fl mdir nm rest with
      | error e2 => rw [hrec] at hk; exact absurd hk (by simp [Except.map])
      | ok res2 =>
        rw [hrec] at hk
        simp only [Except.map] at hk
        cases hk
        rcases List.mem_cons.mp he with he1 | he2
        · subst he1; exact hfl
        · exact ih res2 hrec e he2

/-! ## Claim theorems -/

/-- C1: Symlink containment. For a canonical link path `L` whose raw target
string is `T`, ReadLink fails with `TargetOutsideFS` when `T` is absolute,
otherwise fails with `TargetOutsideFS` when joining `T` onto `L`'s directory
is not a valid canonical in-tree path, and otherwise returns `T` unchanged —
on the in-memory backend (where the target is a stored symlink record's
data) and on the OS backend (where the target is the native readlink
result). -/
theorem readlink_containment (s : FsMap) (L T : String) (f : MapFile)
    (hval : validPath L = true) (hget : mfsGet s L = some f)
    (hmode : isSymlinkMode f.mode = true) (hdata : f.data = T) :
    mapReadLink s L =
      (if isAbs T then .error ⟨"readlink", L, .targetOutsideFS⟩
       else if ¬ validPath (join2 (dirOf L) T) then .error ⟨"readlink", L, .targetOutsideFS⟩
       else .ok T) ∧
    osReadLink L T =
      (if isAbs T then .error ⟨"readlink", L, .targetOutsideFS⟩
       else if ¬ validPath (join2 (dirOf L) T) then .error ⟨"readlink", L, .targetOutsideFS⟩
       else .ok T) := by
  constructor
  · simp [mapReadLink, hval, hget, hmode, hdata]
  · simp [osReadLink, hval]

theorem readlink_containment_witness :
    mapReadLink [("a/link.txt", ⟨"sibling.txt", 134217728, 0⟩)] "a/link.txt"
      = .ok "sibling.txt" ∧
    osReadLink "a/link.txt" "../../outside.txt"
      = .error ⟨"readlink", "a/link.txt", .targetOutsideFS⟩ ∧
    osReadLink "a/link.txt" "/abs/target"
      = .error ⟨"readlink", "a/link.txt", .targetOutsideFS⟩ := by
  refine ⟨?_, ?_, ?_⟩
  · have h := readlink_containment [("a/link.txt", ⟨"sibling.txt", 134217728, 0⟩)]
      "a/link.txt" "sibling.txt" ⟨"sibling.txt", 134217728, 0⟩
      (by decide) (by decide) (by decide) rfl
    rw [h.1]; decide
  · have h := readlink_containment [("a/link.txt", ⟨"../../outside.txt", 134217728, 0⟩)]
      "a/link.txt" "../../outside.txt" ⟨"../../outside.txt", 134217728, 0⟩
      (by decide) (by decide) (by decide) rfl
    rw [h.2]; decide
  · have h := readlink_containment [("a/link.txt", ⟨"/abs/target", 134217728, 0⟩)]
      "a/link.txt" "/abs/target" ⟨"/abs/target", 134217728, 0⟩
      (by decide) (by decide) (by decide) rfl
    rw [h.2]; decide

/-- C2 counterexample: the claim quantifies over all flags, but the
flag-validity checks run before the presence rules. With flags `O_RDWR`
(create absent) on an empty table, the open fails with the `Invalid`
read-write rejection, not `NotExist` as the claim states. -/
theorem open_presence_cex :
    hasFlag O_RDWR O_CREATE = false ∧
    mfsGet ([] : FsMap) "a.txt" = none ∧
    mapOpenFile [] "a.txt" O_RDWR 420 7 = .error ⟨"openfile", "a.txt", .invalidArg⟩ ∧
    mapOpenFile [] "a.txt" O_RDWR 420 7 ≠ .error ⟨"openfile", "a.txt", .notExist⟩ := by
  decide

/-- C2 amended: the in-memory presence rules, provided the flag combination
passes the flag-validity checks the source runs first (access mode read-only
or write-only; create only with write; exclusive only with create): with
create absent and no record the open fails `NotExist`; with exclusive (hence
create) set and a record present it fails `Exist`; with create set and no
record, a fresh empty record with the given mode and the current time is
synthesized as the handle's record, the table unchanged until close. -/
theorem open_presence_rules (s : FsMap) (p : Path) (flag : Nat) (mode : FileMode) (now : Time)
    (hval : validPath p = true)
    (hrw : isReadWrite flag = (true, false) ∨ isReadWrite flag = (false, true))
    (hce : hasFlag flag O_CREATE = true → (isReadWrite flag).2 = true)
    (hxc : hasFlag flag O_EXCL = true → hasFlag flag O_CREATE = true) :
    (mfsGet s p = none → hasFlag flag O_CREATE = false →
      mapOpenFile s p flag mode now = .error ⟨"openfile", p, .notExist⟩) ∧
    (∀ f0, mfsGet s p = some f0 → hasFlag flag O_EXCL = true →
      mapOpenFile s p flag mode now = .error ⟨"openfile", p, .exist⟩) ∧
    (mfsGet s p = none → hasFlag flag O_CREATE = true →
      mapOpenFile s p flag mode now =
        .ok ({ infoName := baseOf p, infoFile := ⟨"", mode, now⟩, hpath := p,
               rdata := none, wbuf := some "" }, s)) := by
  refine ⟨?_, ?_, ?_⟩
  · intro hn hc
    have hx : hasFlag flag O_EXCL = false := by
      cases hEx : hasFlag flag O_EXCL
      · rfl
      · rw [hxc hEx] at hc; exact absurd hc (by simp)
    rcases hrw with h | h <;> simp [mapOpenFile, hval, h, hc, hx, hn]
  · intro f0 hs hx
    have hc : hasFlag flag O_CREATE = true := hxc hx
    have hw2 : (isReadWrite flag).2 = true := hce hc
    have h : isReadWrite flag = (false, true) := by
      rcases hrw with h | h
      · rw [h] at hw2; exact absurd hw2 (by simp)
      · exact h
    simp [mapOpenFile, hval, h, hc, hx, hs]
  · intro hn hc
    have hw2 : (isReadWrite flag).2 = true := hce hc
    have h : isReadWrite flag = (false, true) := by
      rcases hrw with h | h
      · rw [h] at hw2; exact absurd hw2 (by simp)
      · exact h
    cases ht : hasFlag flag O_TRUNC <;> cases ha : hasFlag flag O_APPEND <;>
      simp [mapOpenFile, hval, h, hc, hn, mapOpenWith, ht, ha]

theorem open_presence_rules_witness :
    mapOpenFile [] "a.txt" O_WRONLY 420 7 = .error ⟨"openfile", "a.txt", .notExist⟩ ∧
    mapOpenFile [("a.txt", ⟨"x", 420, 3⟩)] "a.txt" (O_WRONLY ||| O_CREATE ||| O_EXCL) 420 7
      = .error ⟨"openfile", "a.txt", .exist⟩ ∧
    mapOpenFile [] "a.txt" (O_WRONLY ||| O_CREATE) 420 7
      = .ok ({ infoName := "a.txt", infoFile := ⟨"", 420, 7⟩, hpath := "a.txt",
               rdata := none, wbuf := some "" }, []) := by
  refine ⟨?_, ?_, ?_⟩
  · exact (open_presence_rules [] "a.txt" O_WRONLY 420 7 (by decide) (Or.inr (by decide))
      (by decide) (by decide)).1 rfl (by decide)
  · exact (open_presence_rules [("a.txt", ⟨"x", 420, 3⟩)] "a.txt"
      (O_WRONLY ||| O_CREATE ||| O_EXCL) 420 7 (by decide) (Or.inr (by decide))
      (by decide) (by decide)).2.1 ⟨"x", 420, 3⟩ (by decide) (by decide)
  · have h := (open_presence_rules [] "a.txt" (O_WRONLY ||| O_CREATE) 420 7 (by decide)
      (Or.inr (by decide)) (by decide) (by decide)).2.2 rfl (by decide)
    rw [h]; rfl

/-- C8 counterexample: with flags `O_RDONLY|O_TRUNC` on an empty table, the
truncate flag is present and the access mode is not write, yet the open
fails with `NotExist` (the presence rules run before the truncate check),
not `Invalid` as the claim states. -/
theorem open_invalid_flags_cex :
    hasFlag (O_RDONLY ||| O_TRUNC) O_TRUNC = true ∧
    (isReadWrite (O_RDONLY ||| O_TRUNC)).2 = false ∧
    mapOpenFile [] "a.txt" (O_RDONLY ||| O_TRUNC) 420 7
      = .error ⟨"openfile", "a.txt", .notExist⟩ ∧
    mapOpenFile [] "a.txt" (O_RDONLY ||| O_TRUNC) 420 7
      ≠ .error ⟨"openfile", "a.txt", .invalidArg⟩ := by
  decide

/-- C8 amended: the invalid flag combinations, in the source's check order.
The first four conditions (access mode neither read nor write; read-write;
exclusive without create, given a valid access mode; create without write,
given a valid access mode) fail `Invalid` unconditionally. The truncate and
append conditions fail `Invalid` provided a record exists at the path — with
no record and no create flag the presence rule fires first with `NotExist`. -/
theorem open_invalid_flags (s : FsMap) (p : Path) (flag : Nat) (mode : FileMode) (now : Time)
    (hval : validPath p = true) :
    (isReadWrite flag = (false, false) →
      mapOpenFile s p flag mode now = .error ⟨"openfile", p, .invalidArg⟩) ∧
    (isReadWrite flag = (true, true) →
      mapOpenFile s p flag mode now = .error ⟨"openfile", p, .invalidArg⟩) ∧
    ((isReadWrite flag = (true, false) ∨ isReadWrite flag = (false, true)) →
      hasFlag flag O_CREATE = false → hasFlag flag O_EXCL = true →
      mapOpenFile s p flag mode now = .error ⟨"openfile", p, .invalidArg⟩) ∧
    (isReadWrite flag = (true, false) → hasFlag flag O_CREATE = true →
      mapOpenFile s p flag mode now = .error ⟨"openfile", p, .invalidArg⟩) ∧
    (∀ f0, isReadWrite flag = (true, false) → hasFlag flag O_CREATE = false →
      hasFlag flag O_EXCL = false →
      (hasFlag flag O_TRUNC = true ∨ hasFlag flag O_APPEND = true) →
      mfsGet s p = some f0 →
      mapOpenFile s p flag mode now = .error ⟨"openfile", p, .invalidArg⟩) := by
  refine ⟨?_, ?_, ?_, ?_, ?_⟩
  · intro h; simp [mapOpenFile, hval, h]
  · intro h; simp [mapOpenFile, hval, h]
  · intro h hc hx
    rcases h with h | h <;> simp [mapOpenFile, hval, h, hc, hx]
  · intro h hc; simp [mapOpenFile, hval, h, hc]
  · intro f0 h hc hx hta hs
    cases ht : hasFlag flag O_TRUNC
    · have ha : hasFlag flag O_APPEND = true := by
        rcases hta with h2 | h2
        · rw [ht] at h2; exact absurd h2 (by simp)
        · exact h2
      simp [mapOpenFile, hval, h, hc, hx, hs, mapOpenWith, ht, ha]
    · simp [mapOpenFile, hval, h, hc, hx, hs, mapOpenWith, ht]

theorem open_invalid_flags_witness :
    mapOpenFile [] "a.txt" 3 420 7 = .error ⟨"openfile", "a.txt", .invalidArg⟩ ∧
    mapOpenFile [] "a.txt" O_RDWR 420 7 = .error ⟨"openfile", "a.txt", .invalidArg⟩ ∧
    mapOpenFile [] "a.txt" (O_RDONLY ||| O_EXCL) 420 7
      = .error ⟨"openfile", "a.txt", .invalidArg⟩ ∧
    mapOpenFile [] "a.txt" (O_RDONLY ||| O_CREATE) 420 7
      = .error ⟨"openfile", "a.txt", .invalidArg⟩ ∧
    mapOpenFile [("a.txt", ⟨"x", 420, 3⟩)] "a.txt" (O_RDONLY ||| O_TRUNC) 420 7
      = .error ⟨"openfile", "a.txt", .invalidArg⟩ ∧
    mapOpenFile [("a.txt", ⟨"x", 420, 3⟩)] "a.txt" (O_RDONLY ||| O_APPEND) 420 7
      = .error ⟨"openfile", "a.txt", .invalidArg⟩ := by
  refine ⟨?_, ?_, ?_, ?_, ?_, ?_⟩
  · exact (open_invalid_flags [] "a.txt" 3 420 7 (by decide)).1 (by decide)
  · exact (open_invalid_flags [] "a.txt" O_RDWR 420 7 (by decide)).2.1 (by decide)
  · exact (open_invalid_flags [] "a.txt" (O_RDONLY ||| O_EXCL) 420 7 (by decide)).2.2.1
      (Or.inl (by decide)) (by decide) (by decide)
  · exact (open_invalid_flags [] "a.txt" (O_RDONLY ||| O_CREATE) 420 7 (by decide)).2.2.2.1
      (by decide) (by decide)
  · exact (open_invalid_flags [("a.txt", ⟨"x", 420, 3⟩)] "a.txt" (O_RDONLY ||| O_TRUNC) 420 7
      (by decide)).2.2.2.2 ⟨"x", 420, 3⟩ (by decide) (by decide) (by decide)
      (Or.inl (by decide)) (by decide)
  · exact (open_invalid_flags [("a.txt", ⟨"x", 420, 3⟩)] "a.txt" (O_RDONLY ||| O_APPEND) 420 7
      (by decide)).2.2.2.2 ⟨"x", 420, 3⟩ (by decide) (by decide) (by decide)
      (Or.inr (by decide)) (by decide)

/-- C9: a handle returned by a write-only open has no reader, and its Read,
Seek and ReadAt return count (or offset) `0` with a nil error — the
`File not open for reading` assert error is computed and dropped by the
source — while only Write on a handle without a write buffer (a read-only
handle) returns an error. -/
theorem writeonly_handle_reads (s : FsMap) (p : Path) (flag : Nat) (mode : FileMode)
    (t : Time) (h : MapHandle) (s1 : FsMap) (n whence : Nat) (off : Int) (q : String)
    (hw : isReadWrite flag = (false, true))
    (hopen : mapOpenFile s p flag mode t = .ok (h, s1)) :
    mapFileRead h n = ((0, none), h) ∧
    mapFileSeek h off whence = ((0, none), h) ∧
    mapFileReadAt h n off = ((0, none), h) ∧
    (mapFileRead h n).1.2 ≠ some ⟨"read", h.hpath, .invalidArg⟩ ∧
    (∀ g : MapHandle, g.wbuf = none →
      mapFileWrite g q = ((0, some ⟨"write", g.hpath, .invalidArg⟩), g)) := by
  have hr : h.rdata = none := mapOpenFile_writeonly_handle s p flag mode t h s1 hw hopen
  refine ⟨?_, ?_, ?_, ?_, ?_⟩
  · simp [mapFileRead, mapFileAssertReader, hr]
  · simp [mapFileSeek, mapFileAssertReader, hr]
  · simp [mapFileReadAt, mapFileAssertReader, hr]
  · simp [mapFileRead, mapFileAssertReader, hr]
  · intro g hg; simp [mapFileWrite, hg]

theorem writeonly_handle_reads_witness :
    mapFileRead { infoName := "a.txt", infoFile := ⟨"", 420, 7⟩, hpath := "a.txt",
                  rdata := none, wbuf := some "" } 16 =
      ((0, none), { infoName := "a.txt", infoFile := ⟨"", 420, 7⟩, hpath := "a.txt",
                    rdata := none, wbuf := some "" }) := by
  have hopen : mapOpenFile [] "a.txt" (O_WRONLY ||| O_CREATE) 420 7 =
      .ok ({ infoName := "a.txt", infoFile := ⟨"", 420, 7⟩, hpath := "a.txt",
             rdata := none, wbuf := some "" }, []) := by decide
  exact (writeonly_handle_reads [] "a.txt" (O_WRONLY ||| O_CREATE) 420 7 _ _ 16 0 0 "zz"
    (by decide) hopen).1

/-- C10: Chtimes on an existing record ignores the access-time argument
entirely; with a nonzero modification time it stores exactly that time,
leaving the record's content and mode and every other key unchanged; with
the zero time it changes nothing and still succeeds. -/
theorem chtimes_frame (s : FsMap) (p : Path) (f : MapFile) (a a2 mt : Time)
    (hval : validPath p = true) (hget : mfsGet s p = some f) :
    (mapChtimes s p a mt = mapChtimes s p a2 mt) ∧
    (mt = 0 → mapChtimes s p a mt = .ok s) ∧
    (mt ≠ 0 → mapChtimes s p a mt = .ok (mfsSet s p ⟨f.data, f.mode, mt⟩)) ∧
    (mfsGet (mfsSet s p ⟨f.data, f.mode, mt⟩) p = some ⟨f.data, f.mode, mt⟩) ∧
    (∀ q, q ≠ p → mfsGet (mfsSet s p ⟨f.data, f.mode, mt⟩) q = mfsGet s q) := by
  refine ⟨rfl, ?_, ?_, mfsGet_set_self s p _, fun q hq => mfsGet_set_other s p q _ hq⟩
  · intro h0; simp [mapChtimes, hval, hget, h0]
  · intro hne; simp [mapChtimes, hval, hget, hne]

theorem chtimes_frame_witness :
    mapChtimes [("a", ⟨"x", 420, 3⟩), ("b", ⟨"y", 420, 3⟩)] "a" 99 11
      = .ok [("a", ⟨"x", 420, 11⟩), ("b", ⟨"y", 420, 3⟩)] ∧
    mapChtimes [("a", ⟨"x", 420, 3⟩), ("b", ⟨"y", 420, 3⟩)] "a" 99 0
      = .ok [("a", ⟨"x", 420, 3⟩), ("b", ⟨"y", 420, 3⟩)] ∧
    mfsGet [("a", ⟨"x", 420, 11⟩), ("b", ⟨"y", 420, 3⟩)] "b" = some ⟨"y", 420, 3⟩ := by
  have h := chtimes_frame [("a", ⟨"x", 420, 3⟩), ("b", ⟨"y", 420, 3⟩)] "a" ⟨"x", 420, 3⟩
    99 42 11 (by decide) (by decide)
  have h0 := chtimes_frame [("a", ⟨"x", 420, 3⟩), ("b", ⟨"y", 420, 3⟩)] "a" ⟨"x", 420, 3⟩
    99 42 0 (by decide) (by decide)
  refine ⟨?_, ?_, ?_⟩
  · rw [h.2.2.1 (by decide)]; decide
  · rw [h0.2.1 rfl]
  · have hb := h.2.2.2.2 "b" (by decide)
    rw [show mfsSet [("a", (⟨"x", 420, 3⟩ : MapFile)), ("b", ⟨"y", 420, 3⟩)] "a" ⟨"x", 420, 11⟩
        = [("a", ⟨"x", 420, 11⟩), ("b", ⟨"y", 420, 3⟩)] from by decide] at hb
    rw [hb]; decide

/-- Unfolding of `fsSub` at the in-memory backend. -/
theorem fsSub_mapfs_eq (s : FsMap) (dir : String) :
    fsSub (.mapfs s) dir =
      if ¬ validPath dir then .error ⟨"sub", dir, .invalidPath⟩
      else if dir = "." then .ok (.mapfs s)
      else .ok (.mapsub s dir) := rfl

/-- Unfolding of `fsSub` at the subtree proxy. -/
theorem fsSub_mapsub_eq (s : FsMap) (d dir : String) :
    fsSub (.mapsub s d) dir =
      if ¬ validPath dir then .error ⟨"sub", dir, .invalidPath⟩
      else if dir = "." then .ok (.mapsub s d)
      else .ok (.mapsub s (join2 d dir)) := rfl

/-- Unfolding of `fsSub` at a bare value. -/
theorem fsSub_bare_eq (s : FsMap) (dir : String) :
    fsSub (.bare s) dir =
      if ¬ validPath dir then .error ⟨"sub", dir, .invalidPath⟩
      else if dir = "." then .ok (.bare s)
      else .ok (.bare (subView s dir)) := rfl

/-- Unfolding of `fsSub` at a read-only decorator. -/
theorem fsSub_ro_eq (inner : FS0) (dir : String) :
    fsSub (.ro inner) dir =
      if ¬ validPath dir then .error ⟨"sub", dir, .invalidPath⟩
      else if dir = "." then .ok (.ro inner)
      else match fsSub inner dir with
        | .error e => .error e
        | .ok g => .ok (.ro g) := rfl

/-- Unfolding of `fsSub` at a masking decorator. -/
theorem fsSub_mask_eq (inner : FS0) (mdir : String) (fl : Filter) (dir : String) :
    fsSub (.mask inner mdir fl) dir =
      if ¬ validPath dir then .error ⟨"sub", dir, .invalidPath⟩
      else if dir = "." then .ok (.mask inner mdir fl)
      else match maskCheck "sub" mdir fl dir (fsStat inner dir) with
        | .error e => .error e
        | .ok _ => match fsSub inner dir with
          | .error e => .error e
          | .ok g => .ok (.mask g (join2 mdir dir) fl) := rfl

/-- Host `fs.Sub` returns the value itself for the directory `"."`. -/
theorem fsSub_dot (x : FS0) : fsSub x "." = .ok x := by
  have hv : validPath "." = true := by decide
  cases x <;>
    simp [fsSub_mapfs_eq, fsSub_mapsub_eq, fsSub_bare_eq, fsSub_mask_eq, fsSub_ro_eq, hv]

/-- Host `fs.Sub` rejects a non-canonical directory before consulting the
value. -/
theorem fsSub_not_valid (x : FS0) (dir : String) (h : validPath dir = false) :
    fsSub x dir = .error ⟨"sub", dir, .invalidPath⟩ := by
  cases x <;>
    simp [fsSub_mapfs_eq, fsSub_mapsub_eq, fsSub_bare_eq, fsSub_mask_eq, fsSub_ro_eq, h]

/-- The record mode a write through `mapWriteFile` at `p` commits: the
existing record's when one is stored, else the given permission. -/
def effMode (s : FsMap) (p : Path) (perm : FileMode) : FileMode :=
  match mfsGet s p with
  | some f => f.mode
  | none => perm

/-- The table after `mapWriteFile s p D perm t1 t2` succeeds: the truncation
visible in place for a stored record, then the committed record. -/
def roundtripState (s : FsMap) (p : Path) (D : String) (perm : FileMode) (t2 : Time) : FsMap :=
  match mfsGet s p with
  | some f0 => mfsSet (mfsSet s p { f0 with data := "" }) p ⟨D, f0.mode, t2⟩
  | none => mfsSet s p ⟨D, perm, t2⟩

/-- C6 counterexample: a record stored with a directory mode breaks the
round trip as universally stated — the write succeeds (the committed record
keeps the stored mode) but the read-back fails with the host's
`is a directory` error rather than returning the data. -/
theorem write_read_roundtrip_cex :
    mapWriteFile [("d", ⟨"", modeDir, 0⟩)] "d" "hi" 420 1 2
      = .ok [("d", ⟨"hi", modeDir, 2⟩)] ∧
    mapReadFile [("d", ⟨"hi", modeDir, 2⟩)] "d" = .error ⟨"read", "d", .isDirectory⟩ ∧
    mapReadFile [("d", ⟨"hi", modeDir, 2⟩)] "d" ≠ .ok "hi" := by
  decide

/-- C6 amended: the write/read round trip holds for every canonical path and
byte sequence provided the committed record's mode is not a directory mode
(the mode of a stored record at the path, else the given permission): the
write capability commits exactly `D` and the read-file capability returns
it. -/
theorem write_read_roundtrip (s : FsMap) (p : Path) (D : String) (perm : FileMode)
    (t1 t2 : Time) (hval : validPath p = true)
    (hmode : isDirMode (effMode s p perm) = false) :
    mapWriteFile s p D perm t1 t2 = .ok (roundtripState s p D perm t2) ∧
    mapReadFile (roundtripState s p D perm t2) p = .ok D := by
  have hd1 : isReadWrite (O_WRONLY ||| O_CREATE ||| O_TRUNC) = (false, true) := by decide
  have hd2 : hasFlag (O_WRONLY ||| O_CREATE ||| O_TRUNC) O_CREATE = true := by decide
  have hd3 : hasFlag (O_WRONLY ||| O_CREATE ||| O_TRUNC) O_EXCL = false := by decide
  have hd4 : hasFlag (O_WRONLY ||| O_CREATE ||| O_TRUNC) O_TRUNC = true := by decide
  have hd5 : hasFlag (O_WRONLY ||| O_CREATE ||| O_TRUNC) O_APPEND = false := by decide
  cases hget : mfsGet s p with
  | none =>
    simp only [effMode, hget] at hmode
    constructor
    · simp [mapWriteFile, mapOpenFile, mapOpenWith, mapFileWrite, mapFileClose,
        roundtripState, hval, hget, hd1, hd2, hd3, hd4, hd5]
    · simp [roundtripState, hget, mapReadFile, hval, mfsGet_set_self, hmode]
  | some f0 =>
    simp only [effMode, hget] at hmode
    constructor
    · simp [mapWriteFile, mapOpenFile, mapOpenWith, mapFileWrite, mapFileClose,
        roundtripState, hval, hget, hd1, hd2, hd3, hd4, hd5]
    · simp [roundtripState, hget, mapReadFile, hval, mfsGet_set_self, hmode]

theorem write_read_roundtrip_witness :
    mapWriteFile [] "other/other.txt" "other" 420 1 2
      = .ok (roundtripState [] "other/other.txt" "other" 420 2) ∧
    mapReadFile (roundtripState [] "other/other.txt" "other" 420 2) "other/other.txt"
      = .ok "other" ∧
    roundtripState [] "other/other.txt" "other" 420 2
      = [("other/other.txt", ⟨"other", 420, 2⟩)] := by
  have h := write_read_roundtrip [] "other/other.txt" "other" 420 1 2 (by decide) (by decide)
  exact ⟨h.1, h.2, by decide⟩

/-- Filter used in the masking counterexample: hides exactly the path
`secret`. -/
def rejectSecret : Filter := fun p _ => .ok (decide (p ≠ "secret"))

/-- C3 counterexample: the masking decorator's `Glob` delegates to the
wrapped filesystem without consulting the predicate, so it returns a path
whose entry every other operation reports masked. -/
theorem mask_no_bypass_cex :
    fsStat (.mask (.mapfs [("secret", ⟨"x", 420, 0⟩)]) "" rejectSecret) "secret"
      = .error ⟨"stat", "secret", .fileMasked⟩ ∧
    rejectSecret "secret" (infoOf "secret" ⟨"x", 420, 0⟩) = .ok false ∧
    fsGlob (.mask (.mapfs [("secret", ⟨"x", 420, 0⟩)]) "" rejectSecret) "secret"
      = .ok ["secret"] := by
  refine ⟨by decide, by decide, by decide⟩

/-- C3 amended: the masking decorator applies the visibility predicate
identically for open, stat, readdir, readfile, sub (for a subdirectory other
than `"."`, which the host `fs.Sub` returns unchanged), lstat and readlink —
a rejected entry yields the `FileMasked` error, and a directory listing never
contains a rejected child — but `Glob` is delegated to the wrapped
filesystem without applying the predicate, so it can return masked paths. -/
theorem mask_no_bypass_amended (inner : FS0) (mdir : String) (fl : Filter)
    (name parent pat : Path) (info linfo : FileInfoM)
    (hval : validPath name = true) :
    (fsStat inner name = .ok info → fl (join2 mdir name) info = .ok false →
      fsOpen (.mask inner mdir fl) name = .error ⟨"open", name, .fileMasked⟩ ∧
      fsStat (.mask inner mdir fl) name = .error ⟨"stat", name, .fileMasked⟩ ∧
      fsReadDir (.mask inner mdir fl) name = .error ⟨"readdir", name, .fileMasked⟩ ∧
      fsReadFile (.mask inner mdir fl) name = .error ⟨"readfile", name, .fileMasked⟩ ∧
      fsSub (.mask inner mdir fl) name =
        (if name = "." then .ok (.mask inner mdir fl)
         else .error ⟨"sub", name, .fileMasked⟩)) ∧
    (kfsLstat inner name = .ok linfo → fl (join2 mdir name) linfo = .ok false →
      fsLstat (.mask inner mdir fl) name = .error ⟨"lstat", name, .fileMasked⟩ ∧
      fsReadLink (.mask inner mdir fl) name = .error ⟨"readlink", name, .fileMasked⟩) ∧
    (∀ res e, fsReadDir (.mask inner mdir fl) parent = .ok res → e ∈ res →
      fl (joinPaths [mdir, parent, e.name]) e = .ok true) ∧
    (fsGlob (.mask inner mdir fl) pat = fsGlob inner pat) := by
  refine ⟨?_, ?_, ?_, rfl⟩
  · intro hs hfl
    refine ⟨?_, ?_, ?_, ?_, ?_⟩
    · simp [fsOpen, maskCheck, hval, hs, hfl]
    · simp [fsStat, maskCheck, hval, hs, hfl]
    · simp [fsReadDir, maskCheck, hval, hs, hfl]
    · simp [fsReadFile, maskCheck, hval, hs, hfl]
    · by_cases hdot : name = "."
      · subst hdot; simp [fsSub_dot]
      · rw [fsSub_mask_eq]; simp [hval, hdot, maskCheck, hs, hfl]
  · intro hl hfl
    constructor
    · simp [fsLstat, maskCheck, hval, kfsLstat_eq, hl, hfl]
    · simp [fsReadLink, maskCheck, hval, kfsLstat_eq, hl, hfl]
  · intro res e hok he
    simp only [fsReadDir] at hok
    cases hc : maskCheck "readdir" mdir fl parent (fsStat inner parent) with
    | error e2 => rw [hc] at hok; exact absurd hok (by simp)
    | ok info2 =>
      rw [hc] at hok
      cases hd : fsReadDir inner parent with
      | error e2 => rw [hd] at hok; exact absurd hok (by simp)
      | ok entries =>
        rw [hd] at hok
        exact maskFilterEntries_mem fl mdir parent entries res hok e he

theorem mask_no_bypass_amended_witness :
    fsReadFile (.mask (.mapfs [("secret", ⟨"x", 420, 0⟩), ("pub.txt", ⟨"y", 420, 0⟩)]) ""
        rejectSecret) "secret" = .error ⟨"readfile", "secret", .fileMasked⟩ ∧
    (∀ res e,
      fsReadDir (.mask (.mapfs [("secret", ⟨"x", 420, 0⟩), ("pub.txt", ⟨"y", 420, 0⟩)]) ""
        rejectSecret) "." = .ok res → e ∈ res →
      rejectSecret (joinPaths ["", ".", e.name]) e = .ok true) := by
  constructor
  · exact ((mask_no_bypass_amended (.mapfs [("secret", ⟨"x", 420, 0⟩), ("pub.txt", ⟨"y", 420, 0⟩)])
      "" rejectSecret "secret" "." "p" (infoOf "secret" ⟨"x", 420, 0⟩)
      (infoOf "secret" ⟨"x", 420, 0⟩) (by decide)).1 (by decide) (by decide)).2.2.2.1
  · exact (mask_no_bypass_amended (.mapfs [("secret", ⟨"x", 420, 0⟩), ("pub.txt", ⟨"y", 420, 0⟩)])
      "" rejectSecret "secret" "." "p" (infoOf "secret" ⟨"x", 420, 0⟩)
      (infoOf "secret" ⟨"x", 420, 0⟩) (by decide)).2.2.1

/-- C4: the read-only decorator rejects every mutation (`OpenFile`, `Remove`,
`RemoveAll`, `Chtimes`) with a fixed `ReadOnly` error, independent of the
wrapped value — the wrapped filesystem is never consulted and no updated
state is produced; every read capability delegates and returns the wrapped
result unchanged; and `Sub` re-wraps the wrapped subtree in a new read-only
decorator, so the restriction is inherited. -/
theorem readonly_decorator (inner : FS0) (name dir pat : Path) (flag : Nat) (mode : FileMode)
    (a mt t : Time) :
    (fsOpenFile (.ro inner) name flag mode t = .error ⟨"openfile", name, .readOnly⟩) ∧
    (fsRemove (.ro inner) name = .error ⟨"remove", name, .readOnly⟩) ∧
    (fsRemoveAll (.ro inner) name = .error ⟨"removeall", name, .readOnly⟩) ∧
    (fsChtimes (.ro inner) name a mt = .error ⟨"atime", name, .readOnly⟩) ∧
    (fsOpen (.ro inner) name = fsOpen inner name) ∧
    (fsStat (.ro inner) name = fsStat inner name) ∧
    (fsReadDir (.ro inner) name = fsReadDir inner name) ∧
    (fsReadFile (.ro inner) name = fsReadFile inner name) ∧
    (fsGlob (.ro inner) pat = fsGlob inner pat) ∧
    (fsLstat (.ro inner) name = kfsLstat inner name) ∧
    (fsReadLink (.ro inner) name = kfsReadLink inner name) ∧
    (∀ g, fsSub inner dir = .ok g → fsSub (.ro inner) dir = .ok (.ro g)) := by
  refine ⟨rfl, rfl, rfl, rfl, rfl, rfl, rfl, rfl, rfl, rfl, rfl, ?_⟩
  intro g hg
  by_cases hv : validPath dir
  · by_cases hdot : dir = "."
    · subst hdot
      rw [fsSub_dot] at hg
      have hgi : inner = g := by simpa using hg
      subst hgi
      exact fsSub_dot _
    · rw [fsSub_ro_eq]
      simp [hv, hdot, hg]
  · rw [fsSub_not_valid inner dir (by simpa using hv)] at hg
    exact absurd hg (by simp)

theorem readonly_decorator_witness :
    fsOpenFile (.ro (.mapfs [("bar/foobar.txt", ⟨"foo bar", 420, 0⟩)])) "bar/foobar.txt"
      577 420 7 = .error ⟨"openfile", "bar/foobar.txt", .readOnly⟩ ∧
    fsReadFile (.ro (.mapfs [("bar/foobar.txt", ⟨"foo bar", 420, 0⟩)])) "bar/foobar.txt"
      = fsReadFile (.mapfs [("bar/foobar.txt", ⟨"foo bar", 420, 0⟩)]) "bar/foobar.txt" ∧
    fsSub (.ro (.mapfs [("bar/foobar.txt", ⟨"foo bar", 420, 0⟩)])) "bar"
      = .ok (.ro (.mapsub [("bar/foobar.txt", ⟨"foo bar", 420, 0⟩)] "bar")) := by
  have h := readonly_decorator (.mapfs [("bar/foobar.txt", ⟨"foo bar", 420, 0⟩)])
    "bar/foobar.txt" "bar" "p" 577 420 1 2 7
  exact ⟨h.1, h.2.2.2.2.2.2.2.1, h.2.2.2.2.2.2.2.2.2.2.2
    (.mapsub [("bar/foobar.txt", ⟨"foo bar", 420, 0⟩)] "bar") rfl⟩

/-- C5: capability dispatch. Each helper narrows the value to the interface
declaring the operation: when the narrowing fails the helper returns the
`NotImplemented` error wrapping the operation name and the path, computed
without consulting the value; when it succeeds the helper returns exactly
the underlying method's result. -/
theorem capability_dispatch (fsys : FS0) (name : Path) (flag : Nat) (mode : FileMode)
    (t : Time) :
    ((hasLstatCap fsys = false →
        kfsLstat fsys name = .error ⟨"lstat", name, .notImplemented⟩) ∧
     (hasLstatCap fsys = true → kfsLstat fsys name = fsLstat fsys name)) ∧
    ((hasReadLinkCap fsys = false →
        kfsReadLink fsys name = .error ⟨"readlink", name, .notImplemented⟩) ∧
     (hasReadLinkCap fsys = true → kfsReadLink fsys name = fsReadLink fsys name)) ∧
    ((hasWriteCap fsys = false →
        kfsOpenFile fsys name flag mode t = .error ⟨"openfile", name, .notImplemented⟩) ∧
     (hasWriteCap fsys = true →
        kfsOpenFile fsys name flag mode t = fsOpenFile fsys name flag mode t)) ∧
    ((hasRemoveCap fsys = false →
        kfsRemove fsys name = .error ⟨"remove", name, .notImplemented⟩) ∧
     (hasRemoveCap fsys = true → kfsRemove fsys name = fsRemove fsys name)) ∧
    ((hasRemoveAllCap fsys = false →
        kfsRemoveAll fsys name = .error ⟨"removeall", name, .notImplemented⟩) ∧
     (hasRemoveAllCap fsys = true → kfsRemoveAll fsys name = fsRemoveAll fsys name)) := by
  refine ⟨⟨?_, ?_⟩, ⟨?_, ?_⟩, ⟨?_, ?_⟩, ⟨?_, ?_⟩, ⟨?_, ?_⟩⟩ <;> intro h <;>
    simp [kfsLstat, kfsReadLink, kfsOpenFile, kfsRemove, kfsRemoveAll, h]

theorem capability_dispatch_witness :
    kfsLstat (.bare [("foo.txt", ⟨"hi", 420, 0⟩)]) "foo.txt"
      = .error ⟨"lstat", "foo.txt", .notImplemented⟩ ∧
    kfsOpenFile (.bare [("foo.txt", ⟨"hi", 420, 0⟩)]) "foo.txt" 577 420 7
      = .error ⟨"openfile", "foo.txt", .notImplemented⟩ ∧
    kfsRemove (.bare [("foo.txt", ⟨"hi", 420, 0⟩)]) "foo.txt"
      = .error ⟨"remove", "foo.txt", .notImplemented⟩ ∧
    kfsLstat (.mapfs [("foo.txt", ⟨"hi", 420, 0⟩)]) "foo.txt"
      = fsLstat (.mapfs [("foo.txt", ⟨"hi", 420, 0⟩)]) "foo.txt" := by
  have hb := capability_dispatch (.bare [("foo.txt", ⟨"hi", 420, 0⟩)]) "foo.txt" 577 420 7
  have hm := capability_dispatch (.mapfs [("foo.txt", ⟨"hi", 420, 0⟩)]) "foo.txt" 577 420 7
  exact ⟨hb.1.1 rfl, hb.2.2.1.1 rfl, hb.2.2.2.1.1 rfl, hm.1.2 rfl⟩

/-- C7: masking write asymmetry. When no entry exists at the path (the
wrapped stat reports not-exist), the masking decorator's `OpenFile` proceeds
to the wrapped filesystem through the dispatch helper — creation of new
files is never blocked. When an entry exists and the predicate rejects it,
`OpenFile` fails with the `FileMasked` error and the wrapped open is not
consulted (the result is this fixed error whatever the wrapped open would
do). -/
theorem mask_write_asymmetry (inner : FS0) (mdir : String) (fl : Filter) (name : Path)
    (flag : Nat) (mode : FileMode) (t : Time) (e : PathError) (info : FileInfoM)
    (hval : validPath name = true) :
    (fsStat inner name = .error e → e.kind = .notExist →
      fsOpenFile (.mask inner mdir fl) name flag mode t =
        (kfsOpenFile inner name flag mode t).map (fun r => (r.1, .mask r.2 mdir fl))) ∧
    (fsStat inner name = .ok info → fl (join2 mdir name) info = .ok false →
      fsOpenFile (.mask inner mdir fl) name flag mode t
        = .error ⟨"openfile", name, .fileMasked⟩) := by
  constructor
  · intro hs hk
    simp [fsOpenFile, maskCheck, hval, hs, hk, kfsOpenFile_eq]
  · intro hs hfl
    simp [fsOpenFile, maskCheck, hval, hs, hfl]

theorem mask_write_asymmetry_witness :
    fsOpenFile (.mask (.mapfs [("secret", ⟨"x", 420, 0⟩)]) "" rejectSecret) "new.txt"
      577 420 7 =
      (kfsOpenFile (.mapfs [("secret", ⟨"x", 420, 0⟩)]) "new.txt" 577 420 7).map
        (fun r => (r.1, .mask r.2 "" rejectSecret)) ∧
    fsOpenFile (.mask (.mapfs [("secret", ⟨"x", 420, 0⟩)]) "" rejectSecret) "secret"
      577 420 7 = .error ⟨"openfile", "secret", .fileMasked⟩ := by
  constructor
  · exact (mask_write_asymmetry (.mapfs [("secret", ⟨"x", 420, 0⟩)]) "" rejectSecret
      "new.txt" 577 420 7 ⟨"open", "new.txt", .notExist⟩ (infoOf "secret" ⟨"x", 420, 0⟩)
      (by decide)).1 (by decide) rfl
  · exact (mask_write_asymmetry (.mapfs [("secret", ⟨"x", 420, 0⟩)]) "" rejectSecret
      "secret" 577 420 7 ⟨"open", "secret", .notExist⟩ (infoOf "secret" ⟨"x", 420, 0⟩)
      (by decide)).2 (by decide) (by decide)

end Kfs
